import Mathlib

/-!
Verification of the PathFinder resume/job matcher (`src/main.py`) against its
natural-language specification.

The development shallowly embeds the matching pipeline of `main.py`:

* `extract_skills` (lines 186-188): lowercase the text, then for each registry
  entry `s` test the regex `\b<re.escape(s)>\b` with `re.search`.  Word
  boundaries (`\b`) and literal-pattern search are modelled exactly on
  `List Char` (`wbSearch`); `\w` is modelled as ASCII alphanumeric or
  underscore, which agrees with Python's behaviour on the ASCII texts and
  patterns involved.
* the match computation (lines 278-281): Python `set` intersection and
  difference are modelled with `Finset String`, and
  `round(x, 2)` is modelled as `round2` over `ℚ` (round half towards
  positive infinity at the second decimal; on every value the pipeline can
  produce — `k/n*100` with `n ≤ 24` — no tie ever occurs, so the modelled
  rounding agrees with Python's float banker rounding on the
  concrete inputs considered here).
* the request gate (line 267): `if uploaded_file and job_description:` —
  Python truthiness; only `None` and the empty string are falsy.
* `load_users_file` (lines 26-34): the file-system state is modelled by the
  two file names the function touches (`users.json` and `users.json.bak`)
  and JSON parsing by an explicit partial parse function.
* `suggest_courses` (lines 201-227): the two course catalogs are modelled as
  lists of course titles; `Series.str.contains(skill, case=False, na=False)`
  compiles `skill` as a regular expression (pandas default `regex=True`).
  For a skill without regex metacharacters this is exactly case-insensitive
  substring search.  `'+'` is the only metacharacter occurring in a registry
  skill: on current interpreters (Python ≥ 3.11, where `'++'` is a
  possessive quantifier) the skill `"c++"` compiles to "one or more `c`,
  possessively", so the lookup matches any title containing a `c` instead
  of the literal substring `c++`.  The pattern fragment these skills live
  in — literal characters plus `'+'` runs — is compiled and matched exactly
  (`parsePat`, `matchAtoms`); patterns that are invalid on every Python
  version (a `'+'` with nothing to repeat, three or more `'+'` in a row)
  raise `re.error`, modelled by an `Option` result.
-/

/-! ### Word-boundary regex model -/

/-- Model of Python's `\w` on ASCII input: alphanumeric or underscore. -/
def isWordChar (c : Char) : Bool := c.isAlphanum || c == '_'

/-- Model of `str.lower()` on ASCII input (and of `case=False` matching). -/
def toLowerStr (s : String) : String := ⟨s.data.map Char.toLower⟩

/-- Whether position `i` of `t` holds a word character (out of range counts
as a non-word position, matching the virtual ends of a regex subject). -/
def wordAt (t : List Char) (i : Nat) : Bool :=
  match t[i]? with
  | some c => isWordChar c
  | none => false

/-- Whether the position just left of position `i` holds a word character
(the virtual position left of the subject counts as non-word). -/
def leftWordAt (t : List Char) (i : Nat) : Bool :=
  match i with
  | 0 => false
  | j + 1 => wordAt t j

/-- Model of the regex word boundary `\b` at position `i` of `t`: the
word-character status flips between the left and right neighbour of the
position, the subject being flanked by virtual non-word characters. -/
def boundaryAt (t : List Char) (i : Nat) : Bool :=
  leftWordAt t i != wordAt t i

/-- The literal pattern `p` occurs in `t` starting at index `i`. -/
def occursAt (p t : List Char) (i : Nat) : Bool :=
  ((t.drop i).take p.length == p)

/-- Model of `re.search(r'\b' + re.escape(s) + r'\b', text)` viewed as a
Boolean: some occurrence of the literal `p` has a `\b` boundary at both
ends.  (`re.escape` makes the skill string a literal pattern.) -/
def wbSearch (p t : List Char) : Bool :=
  (List.range (t.length + 1)).any fun i =>
    occursAt p t i && boundaryAt t i && boundaryAt t (i + p.length)

/-- A standalone (whole-word) occurrence of `p` in `t`: an occurrence whose
left neighbour, if any, is a non-word character and which is not followed
by a word character.  For patterns that begin and end with a word character
this coincides with `wbSearch` (see `wbSearch_eq_wordOccB`). -/
def wordOccB (p t : List Char) : Bool :=
  (List.range (t.length + 1)).any fun i =>
    occursAt p t i && !leftWordAt t i && !wordAt t (i + p.length)

/-- `w` occurs as a standalone word of `text`, compared case-insensitively
(the pipeline lowercases the subject and all registry entries are
lowercase). -/
def wordOccurs (w text : String) : Bool :=
  wordOccB w.data (toLowerStr text).data

/-! ### Skill registry and extraction (`main.py` lines 168-188) -/

/-- The static skill registry `skill_keywords` of `main.py` lines 168-173,
verbatim. -/
def skill_keywords : List String :=
  ["python", "java", "c++", "sql", "machine learning", "deep learning",
   "data analysis", "data visualization", "excel", "tableau", "power bi",
   "communication", "teamwork", "leadership", "cloud", "aws", "azure",
   "react", "javascript", "node", "html", "css", "nlp", "statistics"]

/-- `extract_skills` (lines 186-188): lowercase the text and keep every
registry entry whose word-boundary-anchored literal pattern is found.  The
Python function returns `list({...})` (a list of the matched set, in
unspecified order); the embedding returns the matched skills in registry
order, which represents the same set — all reasoning below is
order-insensitive. -/
def extractSkills (text : String) : List String :=
  skill_keywords.filter fun s => wbSearch s.data (toLowerStr text).data

/-- Every occurrence of the literal `c++` in `t` is followed by a non-word
character or by the end of the string (as in any ordinary prose, where
`c++` is followed by a space, punctuation, or nothing). -/
def cppTailSafe (t : List Char) : Bool :=
  (List.range t.length).all fun i =>
    !(occursAt "c++".data t i) || !(wordAt t (i + 3))

/-! ### Match computation (`main.py` lines 275-281) -/

/-- `set(resume_skills) & set(job_skills)` (line 278), with the first
argument the candidate (resume) skill set. -/
def matchedOf (resumeSet jobSet : Finset String) : Finset String :=
  resumeSet ∩ jobSet

/-- `set(job_skills) - set(resume_skills)` (line 279). -/
def missingOf (resumeSet jobSet : Finset String) : Finset String :=
  jobSet \ resumeSet

/-- Modelled from the spec: the Recommendation Builder's `extra` output
(spec §4.4, "candidate ∖ job").  `src/main.py` computes only `matched` and
`missing`; `extra` appears in the spec's contract only, so it is modelled
from the spec's words as the opposite set difference. -/
def extraOf (resumeSet jobSet : Finset String) : Finset String :=
  resumeSet \ jobSet

/-- The skill set of a text, as a `Finset` (Python `set(...)`). -/
def skillSetOf (text : String) : Finset String :=
  (extractSkills text).toFinset

/-- Matched skills of a resume text against a job description (line 278). -/
def matchedSkills (resumeText jdText : String) : Finset String :=
  matchedOf (skillSetOf resumeText) (skillSetOf jdText)

/-- Missing skills of a resume text against a job description (line 279). -/
def missingSkills (resumeText jdText : String) : Finset String :=
  missingOf (skillSetOf resumeText) (skillSetOf jdText)

/-- Model of Python `round(q, 2)` over `ℚ`: round `q * 100` to the nearest
integer and divide back.  `round` rounds half towards `+∞` whereas Python's
float `round` is banker's rounding on the nearest double; on every value
the pipeline produces (`k/n * 100` with `0 < n ≤ 24`) no exact tie can
occur, so the two agree wherever this development evaluates `round2`. -/
def round2 (q : ℚ) : ℚ :=
  ((round (q * 100) : ℤ) : ℚ) / 100

/-- Line 281:
`round((len(matched_skills) / len(job_skills) * 100), 2) if job_skills else 0`.
`len(job_skills)` is the length of the (already duplicate-free) job skill
list, `len(matched_skills)` the size of the matched set. -/
def matchPercentOf (resumeText jdText : String) : ℚ :=
  if extractSkills jdText = [] then 0
  else
    round2 (((matchedSkills resumeText jdText).card : ℚ) /
      ((extractSkills jdText).length : ℚ) * 100)

/-- The guarded match computation of lines 267-281.  The uploaded file is
modelled by its extracted text (text extraction from PDF/DOCX is an
excluded external collaborator, spec §1).  `None` and the empty string are
the only falsy values of `uploaded_file` and `job_description`, so the
Python gate `if uploaded_file and job_description:` runs the computation
exactly when a file is present and the job description is a non-empty
(possibly all-whitespace) string. -/
def processRequest (uploadedFile : Option String) (jobDescription : String) :
    Option (List String × List String × Finset String × Finset String × ℚ) :=
  match uploadedFile with
  | none => none
  | some resumeText =>
    if jobDescription = "" then none
    else
      some (extractSkills resumeText, extractSkills jobDescription,
        matchedSkills resumeText jobDescription,
        missingSkills resumeText jobDescription,
        matchPercentOf resumeText jobDescription)

/-! ### Persistent user store (`main.py` lines 23-39) -/

/-- One history entry (the dict built at lines 325-331). -/
structure HistoryEntry where
  timestamp : String
  matchPct : ℚ
  resume : List String
  job : List String
  missing : List String
deriving DecidableEq

/-- One user account record (the dict built at lines 105-109). -/
structure Account where
  password : String
  history : List HistoryEntry
  profile_url : String
deriving DecidableEq

/-- The persisted store: a mapping username → account, modelled as an
association list.  The empty store is `[]` (Python `{}`). -/
abbrev Store : Type := List (String × Account)

/-- The slice of the file system `load_users_file` touches: the contents of
`users.json` (`usersFile`) and of `users.json.bak` (`backupFile`), each
`none` when the file does not exist.  `α` is the raw file content handed to
the JSON parser. -/
structure FSState (α : Type) where
  usersFile : Option α
  backupFile : Option α
deriving DecidableEq

/-- `load_users_file` (lines 26-34).  `parse` models `json.load`; `none`
models a raised parse (or read) exception, which the bare `except:` of the
source catches.  On a parse failure the broken file is renamed to
`users.json.bak` (`os.rename`, which replaces any previous backup) and the
empty store is returned.  The function is total: no branch propagates an
exception. -/
def load_users_file {α : Type} (parse : α → Option Store) (fs : FSState α) :
    FSState α × Store :=
  match fs.usersFile with
  | none => (fs, [])
  | some content =>
    match parse content with
    | some data => (fs, data)
    | none => (⟨none, some content⟩, [])

/-- A concrete content type and parser for witnesses: the only well-formed
content is the literal text `"{}"`, parsed as the empty store. -/
def braceOnlyParse (s : String) : Option Store :=
  if s = "\x7b\x7d" then some [] else none

/-! ### Course suggestion (`main.py` lines 201-227) -/

/-- One row of the suggestion table built by `suggest_courses`. -/
structure Suggestion where
  skill : String
  platform : String
  course : String
  url : String
deriving DecidableEq

/-- Case-insensitive substring test: the meaning of
`Series.str.contains(needle, case=False, na=False)` on a title, for a
needle that is a plain literal (no regex metacharacter). -/
def containsCI (needle hay : String) : Bool :=
  (List.range ((toLowerStr hay).data.length + 1)).any fun i =>
    occursAt (toLowerStr needle).data (toLowerStr hay).data i

/-- Whether pandas' regex compilation of the skill behaves as a literal
substring search: the (lowercased, as matching is case-insensitive) skill
contains no `'+'`.  `str.contains` defaults to `regex=True`; among the
characters occurring in registry skills (letters, digits, spaces, `'+'`)
only `'+'` is a regex metacharacter, so a `'+'`-free skill is matched
literally (`pdCompile_lit`, `pdSearch_lit`).  The one registry skill
containing `'+'` is `"c++"`, which compiles to a *quantified* pattern
instead — see `parsePat`. -/
def regexLiteralOk (s : String) : Bool :=
  (toLowerStr s).data.all fun c => !(c == '+')

/-- A quantifier on a literal atom of the pattern fragment the course
lookup can receive: a bare character, `'+'` (greedy one-or-more), or
`'++'` (possessive one-or-more — valid syntax since Python 3.11). -/
inductive Quant where
  | one : Quant
  | plus : Quant
  | plusPoss : Quant
deriving DecidableEq

/-- The quantifier denoted by a run of `k` consecutive `'+'` after a
literal character: none, greedy one-or-more, possessive one-or-more; three
or more raise `re.error: multiple repeat` (on every Python version). -/
def quantOf (k : Nat) : Option Quant :=
  match k with
  | 0 => some Quant.one
  | 1 => some Quant.plus
  | 2 => some Quant.plusPoss
  | _ + 3 => none

/-- Helper for `parsePat`: parses the *reversed* pattern, `k` counting the
`'+'` run read so far (which, in the original order, follows the next
literal character).  A `'+'` run with no character before it is
`re.error: nothing to repeat`. -/
def parsePatRev : List Char → Nat → Option (List (Char × Quant))
  | [], k => if k == 0 then some [] else none
  | c :: rest, k =>
    if c == '+' then parsePatRev rest (k + 1)
    else
      match quantOf k with
      | none => none
      | some q =>
        match parsePatRev rest 0 with
        | some atoms => some ((c, q) :: atoms)
        | none => none

/-- Model of `re.compile` for the pattern fragment reaching the course
lookup — literal characters plus runs of the quantifier `'+'` (the only
regex metacharacter occurring in registry skills).  Follows current
(Python ≥ 3.11) syntax, where `'++'` is a possessive quantifier: `"c++"`
compiles to the single atom `('c', plusPoss)` — one or more `c`,
possessively — rather than raising as it did on Python ≤ 3.10.  `none`
models the `re.error`s that exist on every version (leading `'+'`, three
or more `'+'` in a row). -/
def parsePat (p : List Char) : Option (List (Char × Quant)) :=
  (parsePatRev p.reverse 0).map List.reverse

/-- `re.compile(skill, re.IGNORECASE)` as performed by
`Series.str.contains(skill, case=False, na=False)`; case-insensitivity is
modelled by lowercasing pattern and subject. -/
def pdCompile (skill : String) : Option (List (Char × Quant)) :=
  parsePat (toLowerStr skill).data

/-- Length of the maximal run of the character `c` at the front of `t`. -/
def atomRun (c : Char) (t : List Char) : Nat :=
  (t.takeWhile fun x => x == c).length

/-- Whether the atom sequence matches a prefix of `t`: a bare atom
consumes exactly its character; a greedy `'+'` atom consumes between one
character and the whole contiguous run (any continuation may succeed); a
possessive `'+'` atom consumes the whole run, with no backtracking. -/
def matchAtoms : List (Char × Quant) → List Char → Bool
  | [], _ => true
  | (c, Quant.one) :: as, t =>
    match t with
    | [] => false
    | x :: rest => x == c && matchAtoms as rest
  | (c, Quant.plus) :: as, t =>
    decide (0 < atomRun c t) &&
      (List.range (atomRun c t)).any fun k => matchAtoms as (t.drop (k + 1))
  | (c, Quant.plusPoss) :: as, t =>
    decide (0 < atomRun c t) && matchAtoms as (t.drop (atomRun c t))

/-- `re.search` of a compiled pattern in a title (the semantics of
`Series.str.contains` with `regex=True`): the atoms match starting at some
position of the lowercased title. -/
def pdSearch (atoms : List (Char × Quant)) (title : String) : Bool :=
  (List.range ((toLowerStr title).data.length + 1)).any fun i =>
    matchAtoms atoms ((toLowerStr title).data.drop i)

/-- The Coursera search URL built at line 207. -/
def courseraUrl (skill : String) : String :=
  "https://www.coursera.org/search?query=" ++ skill

/-- The Udemy search URL built at line 208. -/
def udemyUrl (skill : String) : String :=
  "https://www.udemy.com/courses/search/?q=" ++ skill

/-- The selection part of the loop body (lines 210-225), once the skill's
pattern has compiled to `atoms`: the first Coursera title the pattern
matches, else the first Udemy title it matches, else nothing. -/
def suggestForAtoms (coursera udemy : List String) (skill : String)
    (atoms : List (Char × Quant)) : Option Suggestion :=
  match coursera.filter fun t => pdSearch atoms t with
  | t :: _ => some ⟨skill, "Coursera", t, courseraUrl skill⟩
  | [] =>
    match udemy.filter fun t => pdSearch atoms t with
    | t :: _ => some ⟨skill, "Udemy", t, udemyUrl skill⟩
    | [] => none

/-- The suggestion produced for one missing skill (loop body, lines
204-225): the skill is compiled as a regex (pandas `regex=True` default)
and the first matching Coursera title is taken, else the first matching
Udemy title, else nothing. -/
def suggestFor (coursera udemy : List String) (skill : String) :
    Option Suggestion :=
  match pdCompile skill with
  | none => none
  | some atoms => suggestForAtoms coursera udemy skill atoms

/-- The loop body under the claim's literal-substring reading of
`str.contains`: the first Coursera title *containing* the skill, else the
first Udemy title containing it, else nothing.  `suggestFor_eq_lit` shows
the code agrees with this reading exactly for quantifier-free skills. -/
def suggestForLit (coursera udemy : List String) (skill : String) :
    Option Suggestion :=
  match coursera.filter fun t => containsCI skill t with
  | t :: _ => some ⟨skill, "Coursera", t, courseraUrl skill⟩
  | [] =>
    match udemy.filter fun t => containsCI skill t with
    | t :: _ => some ⟨skill, "Udemy", t, udemyUrl skill⟩
    | [] => none

/-- `suggest_courses` (lines 201-227) over the two catalogs (modelled by
their title columns).  Each skill in turn is compiled as a regex and
looked up; a skill whose pattern does not compile (none of the registry
skills, on Python ≥ 3.11) raises `re.error`, aborting the whole call —
modelled by the `none` result; otherwise the suggestion rows accumulate
in input order. -/
def suggest_courses (coursera udemy : List String) :
    List String → Option (List Suggestion)
  | [] => some []
  | skill :: rest =>
    if (pdCompile skill).isSome then
      match suggest_courses coursera udemy rest with
      | some out =>
        some ((suggestFor coursera udemy skill).toList ++ out)
      | none => none
    else none

/-- The behaviour claim C9 makes of `suggest_courses` (restricted, in the
amended claim, to inputs on which pandas' regex compilation of each skill
is literal-substring search): the call succeeds, produces at most one
suggestion per skill, every suggestion names a missing skill and carries
the first matching title of Coursera — or, when Coursera has no match, of
Udemy — and a skill with no match in either catalog gets no suggestion,
while every skill with a match gets one. -/
def c9Property (coursera udemy missing : List String) : Prop :=
  ∃ out, suggest_courses coursera udemy missing = some out ∧
    (∀ s, out.countP (fun g => g.skill == s) ≤ 1) ∧
    (∀ g ∈ out, g.skill ∈ missing ∧
      ((g.platform = "Coursera" ∧
        (coursera.filter fun t => containsCI g.skill t).head? = some g.course) ∨
       ((coursera.filter fun t => containsCI g.skill t) = [] ∧
        g.platform = "Udemy" ∧
        (udemy.filter fun t => containsCI g.skill t).head? = some g.course))) ∧
    (∀ s ∈ missing, (coursera.filter fun t => containsCI s t) = [] →
      (udemy.filter fun t => containsCI s t) = [] →
      ∀ g ∈ out, g.skill ≠ s) ∧
    (∀ s ∈ missing, ((coursera.filter fun t => containsCI s t) ≠ [] ∨
      (udemy.filter fun t => containsCI s t) ≠ []) →
      ∃ g ∈ out, g.skill = s)

/-! ### Spec-modelled similarity ranker (spec §4.3)

`src/main.py` scores by skill overlap (line 281); the TF-IDF cosine ranker
described in spec §4.3 has no implementation under `src/`.  To settle the
claim that the displayed score *is* that cosine, the ranker is modelled
here from the spec's words. -/

/-- Split a character list into maximal runs of word characters
(accumulator holds the current run, reversed). -/
def splitWordsAux : List Char → List Char → List (List Char)
  | [], acc => if acc = [] then [] else [acc.reverse]
  | c :: cs, acc =>
    if isWordChar c then splitWordsAux cs (c :: acc)
    else if acc = [] then splitWordsAux cs []
    else acc.reverse :: splitWordsAux cs []

/-- Modelled from the spec: the token stream of a text for the §4.3
vectorizer — lowercased maximal word-character runs. -/
def tokensOf (s : String) : List String :=
  (splitWordsAux (toLowerStr s).data []).map fun l => ⟨l⟩

/-- Modelled from the spec: the corpus vocabulary (each distinct term). -/
def vocabOf (docs : List (List String)) : List String :=
  (docs.foldr (· ++ ·) []).dedup

/-- Modelled from the spec: document frequency of term `t`. -/
def dfOf (docs : List (List String)) (t : String) : Nat :=
  docs.countP fun d => d.contains t

/-- Modelled from the spec: a rational-valued inverse document frequency,
`(1 + N) / (1 + df)` — positive, and discounting terms common across the
corpus, as the spec's glossary demands.  (The spec fixes no formula; any
positive weighting gives the same value on the corpora this development
evaluates, where every term occurs in every document.) -/
def idfOf (docs : List (List String)) (t : String) : ℚ :=
  (1 + docs.length : ℚ) / (1 + dfOf docs t : ℚ)

/-- Modelled from the spec: TF-IDF weight of term `t` in document `d`. -/
def weightOf (docs : List (List String)) (d : List String) (t : String) : ℚ :=
  (d.count t : ℚ) * idfOf docs t

/-- Modelled from the spec: inner product of the TF-IDF vectors of two
documents over the corpus vocabulary. -/
def dotOf (docs : List (List String)) (a b : List String) : ℚ :=
  ((vocabOf docs).map fun t => weightOf docs a t * weightOf docs b t).sum

/-- Modelled from the spec: the square of the cosine similarity between the
TF-IDF vectors of the reference and candidate texts, the corpus being the
two texts (§4.3: weights are fit jointly over all input texts).  The
square keeps the value in `ℚ`. -/
def specCosineSq (refText candText : String) : ℚ :=
  (dotOf [tokensOf refText, tokensOf candText]
      (tokensOf refText) (tokensOf candText)) ^ 2 /
    (dotOf [tokensOf refText, tokensOf candText]
        (tokensOf refText) (tokensOf refText) *
      dotOf [tokensOf refText, tokensOf candText]
        (tokensOf candText) (tokensOf candText))

/-- The statement of claim C1 at one input pair: the displayed match
percentage is the cosine similarity of the TF-IDF vectors of the job
description (reference) and resume (candidate), scaled to 0-100 and
rounded to 2 decimals.  The cosine `c` is characterised by being
non-negative with square `specCosineSq` (both vectors have non-negative
entries). -/
def claimC1At (resumeText jdText : String) : Prop :=
  ∃ c : ℚ, 0 ≤ c ∧ c ^ 2 = specCosineSq jdText resumeText ∧
    matchPercentOf resumeText jdText = round2 (100 * c)

/-! ### Concrete scenario texts -/

/-- The job description of the spec's end-to-end scenario (§8). -/
def jdScenario : String :=
  "Looking for a Python developer with AWS and Docker experience"

/-- The resume text of the spec's end-to-end scenario (§8). -/
def resumeScenario : String :=
  "Experienced Python developer, worked with Docker containers"

/-- The statement of claim C2: the outputs the spec's end-to-end scenario
(§8) promises on `jdScenario` / `resumeScenario`. -/
def claimC2Statement : Prop :=
  skillSetOf jdScenario = {"python", "aws", "docker"} ∧
  skillSetOf resumeScenario = {"python", "docker"} ∧
  missingSkills resumeScenario jdScenario = {"aws"} ∧
  extraOf (skillSetOf resumeScenario) (skillSetOf jdScenario) = ∅ ∧
  0 < matchPercentOf resumeScenario jdScenario

/-- The statement of claim C3: both the abbreviation `"ML"` and the full
phrase yield the canonical skill `machine learning`. -/
def claimC3Statement : Prop :=
  "machine learning" ∈ extractSkills "5 years of ML experience" ∧
  "machine learning" ∈ extractSkills "5 years of machine learning experience"

/-! ### Helper lemmas about the registry and the word-boundary model -/

theorem skill_keywords_nodup : skill_keywords.Nodup := by decide

theorem extractSkills_nodup (text : String) : (extractSkills text).Nodup :=
  skill_keywords_nodup.filter _

theorem take_drop_eq_of_occursAt {p t : List Char} {i : Nat}
    (h : occursAt p t i = true) : (t.drop i).take p.length = p := by
  simpa [occursAt, beq_iff_eq] using h

theorem getElem?_of_occursAt {p t : List Char} {i j : Nat} (hj : j < p.length)
    (h : occursAt p t i = true) : t[i + j]? = p[j]? := by
  have heq : (t.drop i).take p.length = p := take_drop_eq_of_occursAt h
  calc t[i + j]? = (t.drop i)[j]? := (List.getElem?_drop t i j).symm
    _ = ((t.drop i).take p.length)[j]? := by
        rw [List.getElem?_take]
        simp [hj]
    _ = p[j]? := by rw [heq]

theorem add_length_le_of_occursAt {p t : List Char} {i : Nat} (hp : p ≠ [])
    (h : occursAt p t i = true) : i + p.length ≤ t.length := by
  have heq : (t.drop i).take p.length = p := take_drop_eq_of_occursAt h
  have h1 : min p.length (t.length - i) = p.length := by
    have h2 := congrArg List.length heq
    simpa [List.length_take, List.length_drop] using h2
  have h3 : p.length ≤ t.length - i := h1 ▸ Nat.min_le_right p.length (t.length - i)
  have h4 : 0 < p.length := List.length_pos.mpr hp
  omega

theorem wordAt_eq_of_getElem? {t : List Char} {i : Nat} {c : Char}
    (h : t[i]? = some c) : wordAt t i = isWordChar c := by
  simp [wordAt, h]

theorem wbSearch_eq_wordOccB {p t : List Char} {c0 cL : Char}
    (h0 : p[0]? = some c0) (hL : p[p.length - 1]? = some cL)
    (hw0 : isWordChar c0 = true) (hwL : isWordChar cL = true) :
    wbSearch p t = wordOccB p t := by
  have hp : p ≠ [] := by
    intro hnil
    rw [hnil] at h0
    simp at h0
  have hplen : 0 < p.length := List.length_pos.mpr hp
  have hpt : ∀ i : Nat,
      (occursAt p t i && boundaryAt t i && boundaryAt t (i + p.length)) =
      (occursAt p t i && !leftWordAt t i && !wordAt t (i + p.length)) := by
    intro i
    cases hocc : occursAt p t i with
    | false => simp
    | true =>
      have hA : wordAt t i = true := by
        have hg : t[i + 0]? = p[0]? := getElem?_of_occursAt hplen hocc
        rw [Nat.add_zero] at hg
        rw [wordAt_eq_of_getElem? (hg.trans h0)]
        exact hw0
      have hB : wordAt t (i + (p.length - 1)) = true := by
        have hg : t[i + (p.length - 1)]? = p[p.length - 1]? :=
          getElem?_of_occursAt (by omega) hocc
        rw [wordAt_eq_of_getElem? (hg.trans hL)]
        exact hwL
      have hsplit : i + p.length = (i + (p.length - 1)) + 1 := by omega
      have hleft : boundaryAt t i = !leftWordAt t i := by
        simp [boundaryAt, hA]
      have hright : boundaryAt t (i + p.length) = !wordAt t (i + p.length) := by
        rw [hsplit]
        have hlw : leftWordAt t ((i + (p.length - 1)) + 1) =
            wordAt t (i + (p.length - 1)) := rfl
        simp [boundaryAt, hlw, hB]
      rw [hleft, hright]
  unfold wbSearch wordOccB
  exact congrArg _ (funext hpt)

/-! ### Arithmetic facts about the rounding model -/

theorem round_le_int {x : ℚ} {n : ℤ} (h : x ≤ (n:ℚ)) : round x ≤ n := by
  rw [round_eq]
  have h2 : x + 1/2 ≤ (n:ℚ) + 1/2 := by linarith
  have h3 := Int.floor_mono h2
  have h4 : ⌊(n:ℚ) + 1/2⌋ = n := by
    rw [add_comm, Int.floor_add_int]
    norm_num
  omega

theorem round2_nonneg {q : ℚ} (h : 0 ≤ q) : 0 ≤ round2 q := by
  unfold round2
  have h1 : (0:ℤ) ≤ round (q * 100) := by
    rw [round_eq]
    exact Int.floor_nonneg.mpr (by linarith)
  have h2 : (0:ℚ) ≤ ((round (q * 100) : ℤ) : ℚ) := by exact_mod_cast h1
  linarith

theorem round2_le_100 {q : ℚ} (h : q ≤ 100) : round2 q ≤ 100 := by
  unfold round2
  have h1 : round (q * 100) ≤ (10000:ℤ) :=
    round_le_int (by push_cast; linarith)
  have h2 : ((round (q * 100) : ℤ) : ℚ) ≤ 10000 := by exact_mod_cast h1
  linarith

theorem round2_intCast (n : ℤ) : round2 ((n:ℚ)) = (n:ℚ) := by
  unfold round2
  have h1 : (n:ℚ) * 100 = ((n * 100 : ℤ) : ℚ) := by push_cast; ring
  rw [h1, round_intCast]
  push_cast
  rw [mul_div_assoc]
  norm_num

theorem round2_hundred : round2 (100:ℚ) = 100 := by
  have h1 : ((100:ℤ):ℚ) = (100:ℚ) := by norm_num
  rw [← h1, round2_intCast]

theorem matchPercent_of_no_jd_skills {resumeText jdText : String}
    (h : extractSkills jdText = []) : matchPercentOf resumeText jdText = 0 := by
  simp [matchPercentOf, h]

/-! ### Claim C7 -/

/-- Claim C7: for every pair of skill sets, the recommendation outputs
satisfy `matched = jobSkills ∩ candidateSkills`,
`missing ∪ matched = jobSkills` and `extra ∪ matched = candidateSkills`
(`missing` and `extra` being the two set differences computed at
`main.py` lines 278-279 and, for `extra`, modelled from spec §4.4). -/
theorem recommend_set_identities (jobSet candSet : Finset String) :
    matchedOf candSet jobSet = jobSet ∩ candSet ∧
    missingOf candSet jobSet ∪ matchedOf candSet jobSet = jobSet ∧
    extraOf candSet jobSet ∪ matchedOf candSet jobSet = candSet := by
  refine ⟨Finset.inter_comm candSet jobSet, ?_, ?_⟩
  · show jobSet \ candSet ∪ candSet ∩ jobSet = jobSet
    rw [Finset.inter_comm]
    exact Finset.sdiff_union_inter jobSet candSet
  · show candSet \ jobSet ∪ candSet ∩ jobSet = candSet
    exact Finset.sdiff_union_inter candSet jobSet

/-! ### Claim C4 -/

/-- Claim C4: if the persisted users file exists but cannot be parsed,
`load_users_file` renames the broken file to the backup name (the original
content is preserved under `users.json.bak`, and `users.json` is gone) and
returns the empty account store; the function is total, so no exception
escapes. -/
theorem load_users_file_quarantines {α : Type} (parse : α → Option Store)
    (fs : FSState α) (content : α) (h1 : fs.usersFile = some content)
    (h2 : parse content = none) :
    load_users_file parse fs = (⟨none, some content⟩, []) := by
  unfold load_users_file
  rw [h1]
  simp [h2]

/-- Witness for C4: a concrete corrupt content under the `braceOnlyParse`
parser is quarantined and the store comes back empty. -/
theorem load_users_file_quarantines_witness :
    braceOnlyParse "corrupt" = none ∧
    load_users_file braceOnlyParse ⟨some "corrupt", none⟩ =
      (⟨none, some "corrupt"⟩, []) :=
  ⟨by decide,
   load_users_file_quarantines braceOnlyParse ⟨some "corrupt", none⟩ "corrupt"
     rfl (by decide)⟩

/-! ### Claim C5 -/

/-- Claim C5 counterexample: a request with a resume present and a
whitespace-only job description *is* processed (the Python gate
`if uploaded_file and job_description:` tests truthiness, and a non-empty
whitespace string is truthy), contradicting the claim that no match
computation is attempted for a whitespace-only job description. -/
theorem whitespace_jd_processed :
    (processRequest (some "Experienced Python developer") "   ").isSome =
      true := by
  rfl

/-- Claim C5 (amended): the match computation is skipped exactly when the
resume is absent or the job description is the empty string; a
whitespace-only job description is accepted and processed. -/
theorem processRequest_none_iff (uploadedFile : Option String)
    (jobDescription : String) :
    processRequest uploadedFile jobDescription = none ↔
      uploadedFile = none ∨ jobDescription = "" := by
  cases uploadedFile with
  | none => simp [processRequest]
  | some resumeText =>
    by_cases h : jobDescription = "" <;> simp [processRequest, h]

/-! ### Claim C6 -/

/-- Claim C6 counterexample: resume text and job description are the
*identical* text `"hello"`, yet the computed score is 0, not 100 — the
text mentions no registry skill, so `job_skills` is empty and line 281
returns its else-branch value 0. -/
theorem identical_text_zero_score : matchPercentOf "hello" "hello" ≠ 100 := by
  rw [matchPercent_of_no_jd_skills (by decide : extractSkills "hello" = [])]
  norm_num

/-- Claim C6 (amended): every computed match percentage lies in `[0, 100]`;
and a candidate text identical to the reference text scores 100 *provided
the job description mentions at least one registry skill* (otherwise the
guard of line 281 yields 0). -/
theorem match_percent_bounds_and_identity (resumeText jdText : String) :
    (0 ≤ matchPercentOf resumeText jdText ∧
      matchPercentOf resumeText jdText ≤ 100) ∧
    (resumeText = jdText → extractSkills jdText ≠ [] →
      matchPercentOf resumeText jdText = 100) := by
  constructor
  · by_cases hj : extractSkills jdText = []
    · rw [matchPercent_of_no_jd_skills hj]
      norm_num
    · rw [matchPercentOf, if_neg hj]
      have hn0 : 0 < (extractSkills jdText).length := List.length_pos.mpr hj
      have hkn : (matchedSkills resumeText jdText).card ≤
          (extractSkills jdText).length := by
        calc (matchedSkills resumeText jdText).card
            ≤ (skillSetOf jdText).card :=
              Finset.card_le_card Finset.inter_subset_right
          _ ≤ (extractSkills jdText).length :=
              (extractSkills jdText).toFinset_card_le
      have hq0 : (0:ℚ) ≤ ((matchedSkills resumeText jdText).card : ℚ) /
          ((extractSkills jdText).length : ℚ) * 100 := by positivity
      have hq1 : ((matchedSkills resumeText jdText).card : ℚ) /
          ((extractSkills jdText).length : ℚ) * 100 ≤ 100 := by
        have hd : ((matchedSkills resumeText jdText).card : ℚ) /
            ((extractSkills jdText).length : ℚ) ≤ 1 := by
          rw [div_le_one (by exact_mod_cast hn0)]
          exact_mod_cast hkn
        nlinarith
      exact ⟨round2_nonneg hq0, round2_le_100 hq1⟩
  · intro heq hne
    subst heq
    rw [matchPercentOf, if_neg hne]
    have hm : matchedSkills resumeText resumeText = skillSetOf resumeText := by
      rw [matchedSkills, matchedOf, Finset.inter_self]
    have hcard : (skillSetOf resumeText).card =
        (extractSkills resumeText).length :=
      List.toFinset_card_of_nodup (extractSkills_nodup resumeText)
    rw [hm, hcard]
    have hn0 : ((extractSkills resumeText).length : ℚ) ≠ 0 := by
      have h1 : (extractSkills resumeText).length ≠ 0 := by
        simpa [Nat.pos_iff_ne_zero] using List.length_pos.mpr hne
      exact_mod_cast h1
    rw [div_self hn0, one_mul]
    exact round2_hundred

/-- Witness for the amended C6 at the one-skill text `"python"`. -/
theorem match_percent_identity_witness :
    "python" = "python" ∧ extractSkills "python" ≠ [] ∧
      matchPercentOf "python" "python" = 100 :=
  ⟨rfl, by decide,
    (match_percent_bounds_and_identity "python" "python").2 rfl (by decide)⟩

/-! ### Claim C1 -/

/-- Claim C1 counterexample: at resume = job description = `"hello"` the
TF-IDF vectors of the two (identical) texts are equal and non-zero, so
their cosine is 1 and the claimed displayed score would be
`round2 (100 · 1) = 100`; but `main.py` line 281 computes 0, because the
score is a skill-overlap ratio and `"hello"` mentions no registry skill.
Hence the displayed score is not the TF-IDF cosine of the texts. -/
theorem score_not_tfidf_cosine : ¬ claimC1At "hello" "hello" := by
  rintro ⟨c, hc0, hcsq, heq⟩
  have ht : tokensOf "hello" = ["hello"] := by decide
  have hw : weightOf [["hello"], ["hello"]] ["hello"] "hello" = 1 := by
    unfold weightOf idfOf
    have hd : dfOf [["hello"], ["hello"]] "hello" = 2 := by decide
    rw [hd]
    have hc : (["hello"] : List String).count "hello" = 1 := by decide
    rw [hc]
    norm_num
  have h1 : specCosineSq "hello" "hello" = 1 := by
    unfold specCosineSq dotOf
    rw [ht]
    have hv : vocabOf [["hello"], ["hello"]] = ["hello"] := by decide
    rw [hv]
    simp [hw]
  rw [h1] at hcsq
  have h2 : (c - 1) * (c + 1) = 0 := by linear_combination hcsq
  have hc1 : c = 1 := by
    rcases mul_eq_zero.mp h2 with h | h
    · exact sub_eq_zero.mp h
    · exfalso
      linarith
  subst hc1
  rw [show (100:ℚ) * 1 = ((100:ℤ):ℚ) by norm_num, round2_intCast] at heq
  rw [matchPercent_of_no_jd_skills (by decide : extractSkills "hello" = [])]
    at heq
  norm_num at heq

/-- Claim C1 (amended): the score presented to the user is the
skill-overlap ratio — the number of matched skills over the number of
job-description skills, scaled to a 0-100 percentage and rounded to 2
decimal places, with 0 when the job description mentions no registry
skill.  It is not a similarity of text vectors. -/
theorem match_percent_is_skill_ratio (resumeText jdText : String) :
    matchPercentOf resumeText jdText =
      if extractSkills jdText = [] then 0
      else round2 (((matchedSkills resumeText jdText).card : ℚ) /
        ((skillSetOf jdText).card : ℚ) * 100) := by
  by_cases hj : extractSkills jdText = []
  · rw [matchPercent_of_no_jd_skills hj, if_pos hj]
  · rw [matchPercentOf, if_neg hj, if_neg hj]
    simp only [skillSetOf]
    rw [List.toFinset_card_of_nodup (extractSkills_nodup jdText)]

/-! ### Claims C2 and C3 -/

/-- Claim C2 counterexample: the registry `skill_keywords` has no entry
`"docker"`, so the scenario's job-skill set is `{python, aws}`, not the
claimed `{python, aws, docker}` (and likewise the resume yields no
`docker`). -/
theorem scenario_no_docker : ¬ claimC2Statement := by
  intro h
  have h2 : skillSetOf jdScenario = {"python", "aws"} := by decide
  rw [claimC2Statement, h2] at h
  exact absurd h.1 (by decide)

/-- Claim C2 (amended): on the spec's end-to-end scenario the pipeline
yields jobSkills = {python, aws}, resumeSkills = {python},
missing = {aws}, extra = {} and a match percentage of 50 (> 0) — `docker`
is absent from both sets because the registry has no such entry. -/
theorem scenario_outputs :
    skillSetOf jdScenario = {"python", "aws"} ∧
    skillSetOf resumeScenario = {"python"} ∧
    missingSkills resumeScenario jdScenario = {"aws"} ∧
    extraOf (skillSetOf resumeScenario) (skillSetOf jdScenario) = ∅ ∧
    matchPercentOf resumeScenario jdScenario = 50 ∧
    0 < matchPercentOf resumeScenario jdScenario := by
  have hje : extractSkills jdScenario = ["python", "aws"] := by decide
  have hm : matchedSkills resumeScenario jdScenario = {"python"} := by decide
  have hne : ¬(extractSkills jdScenario = []) := by
    rw [hje]
    simp
  have h50 : matchPercentOf resumeScenario jdScenario = 50 := by
    rw [matchPercentOf, if_neg hne, hm, hje]
    norm_num [round2, round_eq]
  exact ⟨by decide, by decide, by decide, by decide, h50, by rw [h50]; norm_num⟩

/-- Claim C3 counterexample: the registry associates no abbreviation
pattern with `machine learning` — each skill has exactly one literal
pattern — so the text `"5 years of ML experience"` yields no
`machine learning` (indeed no skill at all). -/
theorem ml_abbreviation_not_recognized : ¬ claimC3Statement := by
  intro h
  exact absurd h.1 (by decide)

/-- Claim C3 (amended): the exact phrase yields `machine learning`, but
the abbreviation `"ML"` does not — the extractor matches only the literal
registry strings, and the registry holds no synonym patterns. -/
theorem ml_phrase_only :
    "machine learning" ∈
        extractSkills "5 years of machine learning experience" ∧
    "machine learning" ∉ extractSkills "5 years of ML experience" := by
  constructor
  · decide
  · decide

/-! ### Claim C10 -/

/-- Claim C10: the registry skill `c++` is unmatchable in ordinary text.
For every input text in which each occurrence of `c++` is followed by a
non-word character or by the end of the string (e.g. `"c++ developer"`),
`extract_skills` does not return `c++`: the compiled pattern `\bc\+\+\b`
can only match when a word character immediately follows the final `+`,
since `+` is itself a non-word character and `\b` demands a word/non-word
flip. -/
theorem cpp_unmatchable (text : String)
    (h : cppTailSafe (toLowerStr text).data = true) :
    "c++" ∉ extractSkills text := by
  intro hmem
  have hwb : wbSearch "c++".data (toLowerStr text).data = true :=
    (List.mem_filter.mp hmem).2
  rw [wbSearch, List.any_eq_true] at hwb
  obtain ⟨i, hi, hcond⟩ := hwb
  simp only [Bool.and_eq_true] at hcond
  obtain ⟨⟨hocc, hb1⟩, hb2⟩ := hcond
  have hplen : ("c++".data).length = 3 := by decide
  have hle : i + 3 ≤ (toLowerStr text).data.length := by
    have h3 := add_length_le_of_occursAt (by decide : "c++".data ≠ []) hocc
    rw [hplen] at h3
    exact h3
  have hw3 : wordAt (toLowerStr text).data (i + 3) = false := by
    have hall := List.all_eq_true.mp (by rwa [cppTailSafe] at h) i
      (List.mem_range.mpr (by omega))
    simp only [Bool.or_eq_true, Bool.not_eq_true'] at hall
    rcases hall with h1 | h1
    · exact absurd h1 (by simp [hocc])
    · exact h1
  have hplus : (toLowerStr text).data[i + 2]? = some '+' := by
    have hg := getElem?_of_occursAt (p := "c++".data) (j := 2)
      (by decide) hocc
    rw [hg]
    decide
  have hw2 : wordAt (toLowerStr text).data (i + 2) = false := by
    rw [wordAt_eq_of_getElem? hplus]
    decide
  rw [hplen] at hb2
  have hfalse : boundaryAt (toLowerStr text).data (i + 3) = false := by
    have hlw : leftWordAt (toLowerStr text).data (i + 3) =
        wordAt (toLowerStr text).data (i + 2) := rfl
    rw [boundaryAt, hlw, hw2, hw3]
    rfl
  rw [hfalse] at hb2
  cases hb2

/-- Witness for C10: the ordinary text `"Senior C++ developer"` (where
`c++` is followed by a space) yields no `c++` skill. -/
theorem cpp_unmatchable_witness :
    cppTailSafe (toLowerStr "Senior C++ developer").data = true ∧
    "c++" ∉ extractSkills "Senior C++ developer" :=
  ⟨by decide, cpp_unmatchable "Senior C++ developer" (by decide)⟩

/-! ### Claim C8 -/

/-- Claim C8: for every input text containing `javascript` as a standalone
word and containing no standalone occurrence of `java`, `extract_skills`
returns a set containing the skill `javascript` and not containing the
skill `java` — matching is whole-word, so the `java` inside `javascript`
does not count. -/
theorem javascript_not_java (text : String)
    (h1 : wordOccurs "javascript" text = true)
    (h2 : wordOccurs "java" text = false) :
    "javascript" ∈ extractSkills text ∧ "java" ∉ extractSkills text := by
  have hjs : wbSearch "javascript".data (toLowerStr text).data =
      wordOccB "javascript".data (toLowerStr text).data :=
    @wbSearch_eq_wordOccB "javascript".data (toLowerStr text).data 'j' 't'
      (by decide) (by decide) (by decide) (by decide)
  have hj : wbSearch "java".data (toLowerStr text).data =
      wordOccB "java".data (toLowerStr text).data :=
    @wbSearch_eq_wordOccB "java".data (toLowerStr text).data 'j' 'a'
      (by decide) (by decide) (by decide) (by decide)
  constructor
  · refine List.mem_filter.mpr ⟨by decide, ?_⟩
    rw [hjs]
    exact h1
  · intro hmem
    have hwb := (List.mem_filter.mp hmem).2
    rw [hj] at hwb
    rw [wordOccurs] at h2
    rw [hwb] at h2
    cases h2

/-- Witness for C8 on a concrete text: `"Expert in JavaScript development"`
contains the standalone word `javascript`, no standalone `java`, and gets
exactly the `javascript` skill. -/
theorem javascript_not_java_witness :
    wordOccurs "javascript" "Expert in JavaScript development" = true ∧
    wordOccurs "java" "Expert in JavaScript development" = false ∧
    ("javascript" ∈ extractSkills "Expert in JavaScript development" ∧
      "java" ∉ extractSkills "Expert in JavaScript development") :=
  ⟨by decide, by decide,
    javascript_not_java "Expert in JavaScript development"
      (by decide) (by decide)⟩

/-! ### Claim C9 -/

theorem parsePatRev_lit (l : List Char)
    (h : (l.all fun c => !(c == '+')) = true) :
    parsePatRev l 0 = some (l.map fun c => (c, Quant.one)) := by
  induction l with
  | nil => rfl
  | cons c rest ih =>
    rw [List.all_cons, Bool.and_eq_true] at h
    obtain ⟨hc, hrest⟩ := h
    have hc2 : (c == '+') = false := by simpa using hc
    simp only [parsePatRev, hc2, Bool.false_eq_true, if_false, quantOf,
      ih hrest]
    rfl

theorem pdCompile_lit {s : String} (h : regexLiteralOk s = true) :
    pdCompile s = some ((toLowerStr s).data.map fun c => (c, Quant.one)) := by
  unfold pdCompile parsePat
  have hrev : (((toLowerStr s).data.reverse).all fun c => !(c == '+')) =
      true := by
    rw [List.all_reverse]
    exact h
  rw [parsePatRev_lit _ hrev]
  simp [List.map_reverse]

theorem matchAtoms_lit (p : List Char) : ∀ t : List Char,
    matchAtoms (p.map fun c => (c, Quant.one)) t = (t.take p.length == p) := by
  induction p with
  | nil =>
    intro t
    simp [matchAtoms]
  | cons c p2 ih =>
    intro t
    cases t with
    | nil =>
      rw [Bool.eq_iff_iff]
      simp [matchAtoms, beq_iff_eq]
    | cons x rest =>
      simp only [List.map_cons, matchAtoms, List.take_succ_cons, ih rest]
      rw [Bool.eq_iff_iff]
      simp [Bool.and_eq_true, beq_iff_eq]

theorem pdSearch_lit (s title : String) :
    pdSearch ((toLowerStr s).data.map fun c => (c, Quant.one)) title =
      containsCI s title := by
  unfold pdSearch containsCI
  exact congrArg _ (funext fun i => by rw [matchAtoms_lit]; rfl)

theorem suggestFor_eq_lit {c u : List String} {s : String}
    (h : regexLiteralOk s = true) :
    suggestFor c u s = suggestForLit c u s := by
  unfold suggestFor
  rw [pdCompile_lit h]
  show suggestForAtoms c u s _ = suggestForLit c u s
  unfold suggestForAtoms suggestForLit
  simp only [pdSearch_lit]

theorem suggestForLit_skill {c u : List String} {s : String} {g : Suggestion}
    (h : suggestForLit c u s = some g) : g.skill = s := by
  unfold suggestForLit at h
  rcases hc : c.filter fun t => containsCI s t with _ | ⟨t0, ts⟩
  · rw [hc] at h
    rcases hu : u.filter fun t => containsCI s t with _ | ⟨t1, ts1⟩
    · rw [hu] at h
      cases h
    · rw [hu] at h
      obtain rfl := Option.some.inj h
      rfl
  · rw [hc] at h
    obtain rfl := Option.some.inj h
    rfl

theorem suggestForLit_eq_none_iff {c u : List String} {s : String} :
    suggestForLit c u s = none ↔
      (c.filter fun t => containsCI s t) = [] ∧
      (u.filter fun t => containsCI s t) = [] := by
  rcases hc : c.filter fun t => containsCI s t with _ | ⟨t0, ts⟩ <;>
    rcases hu : u.filter fun t => containsCI s t with _ | ⟨t1, ts1⟩ <;>
      simp [suggestForLit, hc, hu]

theorem suggestForLit_correct {c u : List String} {s : String}
    {g : Suggestion} (h : suggestForLit c u s = some g) :
    (g.platform = "Coursera" ∧
      (c.filter fun t => containsCI s t).head? = some g.course) ∨
    ((c.filter fun t => containsCI s t) = [] ∧ g.platform = "Udemy" ∧
      (u.filter fun t => containsCI s t).head? = some g.course) := by
  unfold suggestForLit at h
  rcases hc : c.filter fun t => containsCI s t with _ | ⟨t0, ts⟩
  · rw [hc] at h
    rcases hu : u.filter fun t => containsCI s t with _ | ⟨t1, ts1⟩
    · rw [hu] at h
      cases h
    · rw [hu] at h
      obtain rfl := Option.some.inj h
      right
      exact ⟨rfl, rfl, rfl⟩
  · rw [hc] at h
    obtain rfl := Option.some.inj h
    left
    exact ⟨rfl, rfl⟩

theorem suggest_courses_eq_filterMap {c u missing : List String}
    (hok : ∀ s ∈ missing, regexLiteralOk s = true) :
    suggest_courses c u missing =
      some (missing.filterMap (suggestForLit c u)) := by
  induction missing with
  | nil => rfl
  | cons s rest ih =>
    have hs : regexLiteralOk s = true := hok s (List.mem_cons_self s rest)
    have hrest := ih fun x hx => hok x (List.mem_cons_of_mem s hx)
    have hcs : (pdCompile s).isSome = true := by
      rw [pdCompile_lit hs]
      rfl
    simp only [suggest_courses, hcs, if_true, hrest, suggestFor_eq_lit hs]
    cases hsf : suggestForLit c u s <;> simp [List.filterMap_cons, hsf]

theorem countP_filterMap_suggestForLit (c u missing : List String)
    (s : String) :
    (missing.filterMap (suggestForLit c u)).countP (fun g => g.skill == s) ≤
      missing.countP (fun x => x == s) := by
  induction missing with
  | nil => simp
  | cons a rest ih =>
    rw [List.filterMap_cons]
    cases hsf : suggestForLit c u a with
    | none =>
      simp only [List.countP_cons]
      exact le_trans ih (Nat.le_add_right _ _)
    | some g =>
      simp only [List.countP_cons]
      have hg : g.skill = a := suggestForLit_skill hsf
      rw [hg]
      exact Nat.add_le_add_right ih _

/-- Claim C9 (amended): for every duplicate-free sequence of missing
skills in which no skill contains the regex metacharacter `'+'` (which
excludes only the registry skill `c++`), `suggest_courses` succeeds and
returns at most one suggestion per skill — the first Coursera title
containing the skill (case-insensitively), else the first Udemy title,
with unmatched skills silently omitted and matched skills all served.
The restriction is forced by the counterexample: the catalog lookup
compiles each skill as a regular expression (pandas `regex=True`
default), under which `"c++"` is not a substring test — on Python ≥ 3.11
it is a possessive "one or more `c`", matching any title that contains a
`c` at all. -/
theorem suggest_courses_contract (coursera udemy missing : List String)
    (hok : ∀ s ∈ missing, regexLiteralOk s = true)
    (hnd : missing.Nodup) :
    c9Property coursera udemy missing := by
  refine ⟨missing.filterMap (suggestForLit coursera udemy),
    suggest_courses_eq_filterMap hok, ?_, ?_, ?_, ?_⟩
  · intro s
    have h1 := countP_filterMap_suggestForLit coursera udemy missing s
    have h2 : missing.countP (fun x => x == s) ≤ 1 := by
      have h3 := List.nodup_iff_count_le_one.mp hnd s
      rwa [List.count_eq_countP] at h3
    exact le_trans h1 h2
  · intro g hg
    obtain ⟨a, ha, hfa⟩ := List.mem_filterMap.mp hg
    have hga : g.skill = a := suggestForLit_skill hfa
    constructor
    · rw [hga]
      exact ha
    · have hcorr := suggestForLit_correct hfa
      rw [hga]
      exact hcorr
  · intro s hs hcf huf g hg hgs
    obtain ⟨a, ha, hfa⟩ := List.mem_filterMap.mp hg
    have hga : g.skill = a := suggestForLit_skill hfa
    have has : a = s := by rw [← hga, hgs]
    subst has
    have hnone : suggestForLit coursera udemy a = none :=
      suggestForLit_eq_none_iff.mpr ⟨hcf, huf⟩
    rw [hfa] at hnone
    cases hnone
  · intro s hs hne
    have hsome : suggestForLit coursera udemy s ≠ none := by
      rw [Ne, suggestForLit_eq_none_iff]
      tauto
    obtain ⟨g, hg⟩ := Option.ne_none_iff_exists'.mp hsome
    exact ⟨g, List.mem_filterMap.mpr ⟨s, hs, hg⟩, suggestForLit_skill hg⟩

/-- Claim C9 counterexample: with the single missing skill `"c++"` and a
primary catalog whose only title, `"Cloud Computing"`, does *not* contain
`c++` as a (case-insensitive) substring, the claim demands the skill be
omitted from the result; instead `suggest_courses` returns a Coursera
suggestion for that very title.  `Series.str.contains` compiles the skill
as a regular expression (pandas default `regex=True`), and on current
interpreters (Python ≥ 3.11) `c++` is a possessive "one or more `c`", so
it matches the `c` of `"Cloud Computing"`. -/
theorem cpp_course_lookup_spurious :
    containsCI "c++" "Cloud Computing" = false ∧
    suggest_courses ["Cloud Computing"] [] ["c++"] =
      some [⟨"c++", "Coursera", "Cloud Computing", courseraUrl "c++"⟩] := by
  constructor
  · decide
  · decide

/-- Witness for the amended C9 on concrete catalogs: `"aws"` is served
from Coursera, `"docker"` falls back to Udemy. -/
theorem suggest_courses_contract_witness :
    (∀ s ∈ (["aws", "docker"] : List String), regexLiteralOk s = true) ∧
    (["aws", "docker"] : List String).Nodup ∧
    c9Property ["AWS Fundamentals", "Excel Basics"] ["Docker Deep Dive"]
      ["aws", "docker"] :=
  ⟨by decide, by decide,
    suggest_courses_contract ["AWS Fundamentals", "Excel Basics"]
      ["Docker Deep Dive"] ["aws", "docker"] (by decide) (by decide)⟩
